import Mathlib

/-!
# Discrete (line) spectrum: `src/spectra/discrete.cpp`

A shallow embedding of the `DiscreteSpectrum` plugin and of the
`DiscreteDistribution` it owns.

* Floating-point values are modelled by exact rationals (`ℚ`); every
  statement below is a statement of exact arithmetic.
* `DynamicBuffer<Float>` is a `List ℚ`.
* A C++ exception is a value of `Error` returned through `Except`.
* `string::tokenize` and `string::stof` live in the core string library,
  which is not part of `discrete.cpp`; the constructor takes them as
  parameters.  A token is a valid float exactly when `stof` returns `some`.
* `DiscreteDistribution` (`mitsuba/core/distr_1d.h`) is not part of
  `discrete.cpp` either; it is modelled from the specification.
-/

namespace Mitsuba

/-! ## Errors -/

/-- The error kinds of the specification.  Every `Throw` of `discrete.cpp`
carries its formatted message; `NotImplementedError(name)` carries the name of
the operation. -/
inductive Error where
  | ParseError (message : String)
  | SizeMismatch (message : String)
  | DegenerateDistribution
  | NotSupported (operation : String)
  deriving DecidableEq

/-! ## DiscreteDistribution -/

/-- Modelled from the spec: the class `DiscreteDistribution` of
`mitsuba/core/distr_1d.h`, which `discrete.cpp` only uses.  `weights` is the
raw, unnormalized weight array (the array that the source reaches through the
accessor `m_distr.pmf()` and exposes as the parameter "weights"); `pmf`, `cdf`
and `normalization` are the derived, cached state of section 3. -/
structure DiscreteDistribution where
  weights : List ℚ
  pmf : List ℚ
  cdf : List ℚ
  normalization : ℚ
  deriving DecidableEq

/-- Modelled from the spec: the derived table `pmf[i] = weight[i] / sum(weight)`
of `DiscreteDistribution` (section 3). -/
def DiscreteDistribution.compute_pmf (weights : List ℚ) : List ℚ :=
  weights.map (fun w => w / weights.sum)

/-- Modelled from the spec: the derived table `cdf[i] = sum(pmf[0..i])` of
`DiscreteDistribution` (section 3), the bound `i` included. -/
def DiscreteDistribution.compute_cdf (pmf : List ℚ) : List ℚ :=
  (List.range pmf.length).map (fun i => (pmf.take (i + 1)).sum)

/-- Modelled from the spec: `DiscreteDistribution.construct` (section 4.1).
Constraints: every weight `≥ 0` and `sum(weights) > 0`; fails with
`DegenerateDistribution` when the sum is zero or negative weights are present;
otherwise computes `pmf`, `cdf` and `normalization = sum(weight)`. -/
def DiscreteDistribution.construct (weights : List ℚ) :
    Except Error DiscreteDistribution :=
  if weights.any (fun w => decide (w < 0)) || decide (weights.sum = 0) then
    .error .DegenerateDistribution
  else
    .ok { weights := weights
          pmf := DiscreteDistribution.compute_pmf weights
          cdf := DiscreteDistribution.compute_cdf
                   (DiscreteDistribution.compute_pmf weights)
          normalization := weights.sum }

/-- Modelled from the spec: `DiscreteDistribution.refresh` (section 4.1), the
method `m_distr.update()` of the source: recomputes `pmf`, `cdf` and `normalization` from
the current, possibly externally mutated, weight array. -/
def DiscreteDistribution.update (d : DiscreteDistribution) :
    Except Error DiscreteDistribution :=
  DiscreteDistribution.construct d.weights

/-- Modelled from the spec: the index search of `DiscreteDistribution.sample`
(section 4.1): the smallest index `i` such that `cdf[i] >= u`, clamped to
`[0, N-1]`. -/
def DiscreteDistribution.sample_index (d : DiscreteDistribution) (u : ℚ) : Nat :=
  min (d.cdf.findIdx (fun c => decide (u ≤ c))) (d.cdf.length - 1)

/-- Modelled from the spec: `DiscreteDistribution.sample` (section 4.1), the
method `m_distr.sample_pmf` of the source: returns the index and its own `pmf[index]`. -/
def DiscreteDistribution.sample_pmf (d : DiscreteDistribution) (u : ℚ) : Nat × ℚ :=
  (d.sample_index u, d.pmf.getD (d.sample_index u) 0)

/-! ## DiscreteSpectrum -/

/-- The two properties read by the constructor: `props.string("wavelengths")`
(required) and `props.string("weights")`, present exactly when
`props.has_property("weights")`. -/
structure Properties where
  wavelengths : String
  weights : Option String
  deriving DecidableEq

/-- The private members of `DiscreteSpectrum`. -/
structure DiscreteSpectrum where
  m_distr : DiscreteDistribution
  m_wavelengths : List ℚ
  deriving DecidableEq

/-- The message thrown by both parsing loops of the constructor:
the text `While parsing <field>: could not parse floating point value`
followed by the token `s` between single quotes. -/
def parseErrorMessage (field s : String) : String :=
  "While parsing " ++ field ++ ": could not parse floating point value \x27" ++ s ++ "\x27"

/-- The message thrown by both size checks. -/
def sizeMismatchMessage : String :=
  "\x27weights\x27 and \x27wavelengths\x27 arrays must have the same size"

/-- The parsing loop of the constructor (lines 36-44 for `wavelengths`,
63-71 for `weights`): tokens are converted in order and the first token that
`stof` rejects throws. -/
def parseTokens (stof : String → Option ℚ) (field : String) :
    List String → Except Error (List ℚ)
  | [] => .ok []
  | s :: rest =>
    match stof s with
    | none => .error (.ParseError (parseErrorMessage field s))
    | some v =>
      match parseTokens stof field rest with
      | .error e => .error e
      | .ok vs => .ok (v :: vs)

/-- The weight collection of the constructor (lines 48-76). -/
def collectWeights (tokenize : String → String → List String)
    (stof : String → Option ℚ) (props : Properties) (wavelengths_data : List ℚ) :
    Except Error (List ℚ) :=
  match props.weights with
  | some str =>
    if (tokenize str " ,").length ≠ wavelengths_data.length then
      .error (.SizeMismatch sizeMismatchMessage)
    else
      parseTokens stof "weights" (tokenize str " ,")
  | none => .ok (List.replicate wavelengths_data.length 1)

/-- The constructor `DiscreteSpectrum(const Properties &props)`. -/
def DiscreteSpectrum.construct (tokenize : String → String → List String)
    (stof : String → Option ℚ) (props : Properties) : Except Error DiscreteSpectrum :=
  match parseTokens stof "wavelengths" (tokenize props.wavelengths " ,") with
  | .error e => .error e
  | .ok wavelengths_data =>
    match collectWeights tokenize stof props wavelengths_data with
    | .error e => .error e
    | .ok weights =>
      match DiscreteDistribution.construct weights with
      | .error e => .error e
      | .ok distr => .ok { m_distr := distr, m_wavelengths := wavelengths_data }

/-- An external write to the parameter "weights" published by `traverse`:
the raw weight array is replaced, the derived tables are left as they were. -/
def DiscreteSpectrum.set_weights (s : DiscreteSpectrum) (w : List ℚ) : DiscreteSpectrum :=
  { s with m_distr := { s.m_distr with weights := w } }

/-- An external write to the parameter "wavelengths" published by `traverse`. -/
def DiscreteSpectrum.set_wavelengths (s : DiscreteSpectrum) (w : List ℚ) : DiscreteSpectrum :=
  { s with m_wavelengths := w }

/-- The method `parameters_changed`: `m_distr.update()` runs first, then the
sizes are compared.  The result pairs the outcome with the object as the call
leaves it (an exception thrown by `update` leaves the members untouched; the
size check throws after `m_distr` has been updated). -/
def DiscreteSpectrum.parameters_changed (s : DiscreteSpectrum) :
    Except Error Unit × DiscreteSpectrum :=
  match s.m_distr.update with
  | .error e => (.error e, s)
  | .ok d =>
    if d.weights.length ≠ s.m_wavelengths.length then
      (.error (.SizeMismatch sizeMismatchMessage), { s with m_distr := d })
    else
      (.ok (), { s with m_distr := d })

/-- The method `eval`: a Dirac spectrum always evaluates to 0.  The type of
the surface interaction (the position) is a parameter; `active` is the mask. -/
def DiscreteSpectrum.eval {SurfaceInteraction3f : Type} (_s : DiscreteSpectrum)
    (_si : SurfaceInteraction3f) (_active : Bool) : ℚ := 0

/-- The method `pdf_spectrum`: always 0. -/
def DiscreteSpectrum.pdf_spectrum {SurfaceInteraction3f : Type} (_s : DiscreteSpectrum)
    (_si : SurfaceInteraction3f) (_active : Bool) : ℚ := 0

/-- The gather `dr::gather<Wavelength>(m_wavelengths, indexes)`: the element at
the index; `none` stands for a read outside the buffer. -/
def gather (source : List ℚ) (index : Nat) : Option ℚ := source.get? index

/-- The method `sample_spectrum`; `is_spectral` is the compile-time predicate
`is_spectral_v<Spectrum>`. -/
def DiscreteSpectrum.sample_spectrum (is_spectral : Bool) (s : DiscreteSpectrum)
    (sample : ℚ) : Except Error (Option ℚ × ℚ) :=
  if is_spectral then
    .ok (gather s.m_wavelengths (s.m_distr.sample_pmf sample).1,
         (s.m_distr.sample_pmf sample).2)
  else
    .error (.NotSupported "sample")

/-- The method `mean`. -/
def DiscreteSpectrum.mean (_s : DiscreteSpectrum) : Except Error ℚ :=
  .error (.NotSupported "mean")

/-! ## An instance of the string helpers

The constructor is parametric in the tokenizer and in the float parser.  The
two functions below are one structural instance, used to run the constructor
on concrete configuration strings. -/

/-- Splits a character list at every delimiter character, empty pieces
included. -/
def splitChars (delims : List Char) : List Char → List (List Char)
  | [] => [[]]
  | c :: cs =>
    match splitChars delims cs with
    | [] => [[]]
    | t :: ts => if c ∈ delims then [] :: t :: ts else (c :: t) :: ts

/-- A tokenizer: the non-empty pieces between delimiter characters. -/
def exampleTokenize (s : String) (delim : String) : List String :=
  ((splitChars delim.data s.data).filter (fun t => !t.isEmpty)).map String.mk

/-- The value of a non-empty string of decimal digits. -/
def digitsValue : List Char → Option Nat
  | [] => none
  | cs => cs.foldl (fun acc c =>
      match acc with
      | none => none
      | some n => if c.isDigit then some (10 * n + (c.toNat - 48)) else none) (some 0)

/-- A float parser: accepts decimal integers, with an optional leading minus
sign, and rejects everything else. -/
def exampleStof (s : String) : Option ℚ :=
  match s.data with
  | '-' :: cs => (digitsValue cs).map (fun n => -(n : ℚ))
  | cs => (digitsValue cs).map (fun n => (n : ℚ))

/-- The spectrum of the worked example: wavelengths `[400, 500, 600]`, weights
`[1, 2, 3]`. -/
def exampleSpectrum : DiscreteSpectrum :=
  { m_distr := { weights := [1, 2, 3]
                 pmf := [1 / 6, 2 / 6, 3 / 6]
                 cdf := [1 / 6, 3 / 6, 1]
                 normalization := 6 }
    m_wavelengths := [400, 500, 600] }

/-- The configuration of the worked example. -/
def exampleProps : Properties :=
  { wavelengths := "400 500 600", weights := some "1 2 3" }

/-! ## Lists of rationals -/

theorem sum_map_div (w : List ℚ) (c : ℚ) : (w.map (fun x => x / c)).sum = w.sum / c := by
  induction w with
  | nil => simp
  | cons a t ih => simp [ih, add_div]

theorem sum_pos_of_valid (w : List ℚ) (hnn : ∀ x ∈ w, 0 ≤ x) (hnz : ∃ x ∈ w, x ≠ 0) :
    0 < w.sum := by
  obtain ⟨x, hx, hx0⟩ := hnz
  have h1 : 0 < x := lt_of_le_of_ne (hnn x hx) (Ne.symm hx0)
  exact lt_of_lt_of_le h1 (List.single_le_sum hnn x hx)

theorem sum_take_mono (p : List ℚ) (hnn : ∀ x ∈ p, 0 ≤ x) (m n : Nat) (hmn : m ≤ n) :
    (p.take m).sum ≤ (p.take n).sum := by
  induction p generalizing m n with
  | nil => simp
  | cons a t ih =>
    cases m with
    | zero =>
      simp only [List.take_zero, List.sum_nil]
      exact List.sum_nonneg (fun x hx => hnn x (List.mem_of_mem_take hx))
    | succ m =>
      cases n with
      | zero => omega
      | succ n =>
        simp only [List.take_succ_cons, List.sum_cons]
        have := ih (fun x hx => hnn x (List.mem_cons_of_mem _ hx)) m n (by omega)
        linarith

theorem sum_take_succ (p : List ℚ) (i : Nat) (hi : i < p.length) :
    (p.take (i + 1)).sum = (p.take i).sum + p.getD i 0 := by
  induction p generalizing i with
  | nil => simp at hi
  | cons a t ih =>
    cases i with
    | zero => simp
    | succ i =>
      simp only [List.length_cons, Nat.add_lt_add_iff_right] at hi
      simp only [List.take_succ_cons, List.sum_cons, List.getD_cons_succ, ih i hi]
      ring

/-! ## The derived tables -/

theorem compute_pmf_length (w : List ℚ) :
    (DiscreteDistribution.compute_pmf w).length = w.length := by
  simp [DiscreteDistribution.compute_pmf]

theorem compute_pmf_getD (w : List ℚ) (i : Nat) :
    (DiscreteDistribution.compute_pmf w).getD i 0 = w.getD i 0 / w.sum := by
  unfold DiscreteDistribution.compute_pmf
  by_cases hi : i < w.length
  · simp [List.getD_eq_getElem?_getD, List.getElem?_map, List.getElem?_eq_getElem hi]
  · have h1 : w.length ≤ i := by omega
    simp [List.getD_eq_getElem?_getD, List.getElem?_map, List.getElem?_eq_none h1]

theorem compute_pmf_nonneg (w : List ℚ) (hnn : ∀ x ∈ w, 0 ≤ x) :
    ∀ x ∈ DiscreteDistribution.compute_pmf w, 0 ≤ x := by
  intro x hx
  simp only [DiscreteDistribution.compute_pmf, List.mem_map] at hx
  obtain ⟨y, hy, rfl⟩ := hx
  exact div_nonneg (hnn y hy) (List.sum_nonneg hnn)

theorem compute_pmf_sum (w : List ℚ) (hs : w.sum ≠ 0) :
    (DiscreteDistribution.compute_pmf w).sum = 1 := by
  unfold DiscreteDistribution.compute_pmf
  rw [sum_map_div, div_self hs]

theorem compute_cdf_length (p : List ℚ) :
    (DiscreteDistribution.compute_cdf p).length = p.length := by
  simp [DiscreteDistribution.compute_cdf]

theorem compute_cdf_getD (p : List ℚ) (i : Nat) (hi : i < p.length) :
    (DiscreteDistribution.compute_cdf p).getD i 0 = (p.take (i + 1)).sum := by
  unfold DiscreteDistribution.compute_cdf
  simp [List.getD_eq_getElem?_getD, List.getElem?_map, List.getElem?_range hi]

/-! ## Construction of the distribution -/

theorem distr_construct_ok (w : List ℚ) (hnn : ∀ x ∈ w, 0 ≤ x) (hs : w.sum ≠ 0) :
    DiscreteDistribution.construct w =
      .ok { weights := w
            pmf := DiscreteDistribution.compute_pmf w
            cdf := DiscreteDistribution.compute_cdf (DiscreteDistribution.compute_pmf w)
            normalization := w.sum } := by
  unfold DiscreteDistribution.construct
  have h1 : w.any (fun x => decide (x < 0)) = false := by
    rw [List.any_eq_false]
    intro x hx
    simpa using hnn x hx
  simp [h1, hs]

theorem distr_construct_inv (w : List ℚ) (d : DiscreteDistribution)
    (h : DiscreteDistribution.construct w = .ok d) :
    (∀ x ∈ w, 0 ≤ x) ∧ w.sum ≠ 0 ∧
      d = { weights := w
            pmf := DiscreteDistribution.compute_pmf w
            cdf := DiscreteDistribution.compute_cdf (DiscreteDistribution.compute_pmf w)
            normalization := w.sum } := by
  unfold DiscreteDistribution.construct at h
  split at h
  · cases h
  · rename_i hc
    simp only [Bool.or_eq_true, List.any_eq_true, decide_eq_true_eq, not_or, not_exists,
      not_and, not_lt] at hc
    refine ⟨hc.1, hc.2, ?_⟩
    injection h with h
    exact h.symm

theorem distr_construct_degenerate (w : List ℚ)
    (h : (∀ x ∈ w, x = 0) ∨ ∃ x ∈ w, x < 0) :
    DiscreteDistribution.construct w = .error .DegenerateDistribution := by
  unfold DiscreteDistribution.construct
  rcases h with h | ⟨x, hx, hneg⟩
  · have : w.sum = 0 := List.sum_eq_zero h
    simp [this]
  · have : w.any (fun x => decide (x < 0)) = true := by
      rw [List.any_eq_true]
      exact ⟨x, hx, by simpa using hneg⟩
    simp [this]

/-! ## The cumulative table of a valid weight list -/

theorem cdf_mono (w : List ℚ) (hnn : ∀ x ∈ w, 0 ≤ x) (i j : Nat) (hij : i ≤ j)
    (hj : j < w.length) :
    (DiscreteDistribution.compute_cdf (DiscreteDistribution.compute_pmf w)).getD i 0 ≤
      (DiscreteDistribution.compute_cdf (DiscreteDistribution.compute_pmf w)).getD j 0 := by
  have hl := compute_pmf_length w
  rw [compute_cdf_getD _ i (by omega), compute_cdf_getD _ j (by omega)]
  exact sum_take_mono _ (compute_pmf_nonneg w hnn) _ _ (by omega)

theorem cdf_last (w : List ℚ) (hs : w.sum ≠ 0) (hN : 1 ≤ w.length) :
    (DiscreteDistribution.compute_cdf (DiscreteDistribution.compute_pmf w)).getD
      (w.length - 1) 0 = 1 := by
  have hl := compute_pmf_length w
  rw [compute_cdf_getD _ _ (by omega)]
  have : w.length - 1 + 1 = (DiscreteDistribution.compute_pmf w).length := by omega
  rw [this, List.take_length, compute_pmf_sum w hs]

theorem length_pos_of_sum_ne_zero (w : List ℚ) (hs : w.sum ≠ 0) : 1 ≤ w.length := by
  cases w with
  | nil => simp at hs
  | cons a t => simp

/-! ## The index search -/

theorem sample_index_spec (cdf : List ℚ) (u : ℚ) (hex : ∃ c ∈ cdf, u ≤ c) :
    min (cdf.findIdx (fun c => decide (u ≤ c))) (cdf.length - 1) < cdf.length ∧
    u ≤ cdf.getD (min (cdf.findIdx (fun c => decide (u ≤ c))) (cdf.length - 1)) 0 ∧
    ∀ j, j < min (cdf.findIdx (fun c => decide (u ≤ c))) (cdf.length - 1) →
      cdf.getD j 0 < u := by
  have hlt : cdf.findIdx (fun c => decide (u ≤ c)) < cdf.length := by
    rw [List.findIdx_lt_length]
    obtain ⟨c, hc, hu⟩ := hex
    exact ⟨c, hc, by simpa using hu⟩
  have hmin : min (cdf.findIdx (fun c => decide (u ≤ c))) (cdf.length - 1)
      = cdf.findIdx (fun c => decide (u ≤ c)) := by omega
  rw [hmin]
  refine ⟨hlt, ?_, ?_⟩
  · have := @List.findIdx_getElem _ (fun c => decide (u ≤ c)) cdf hlt
    rw [List.getD_eq_getElem?_getD, List.getElem?_eq_getElem hlt]
    simpa using this
  · intro j hj
    have := @List.not_of_lt_findIdx _ (fun c => decide (u ≤ c)) cdf j hj
    have hjl : j < cdf.length := by omega
    rw [List.getD_eq_getElem?_getD, List.getElem?_eq_getElem hjl]
    simpa using this

theorem sample_index_unique (cdf : List ℚ) (u : ℚ) (i : Nat) (hi : i < cdf.length)
    (h1 : u ≤ cdf.getD i 0) (h2 : ∀ j, j < i → cdf.getD j 0 < u) :
    min (cdf.findIdx (fun c => decide (u ≤ c))) (cdf.length - 1) = i := by
  have hf : cdf.findIdx (fun c => decide (u ≤ c)) = i := by
    rw [List.findIdx_eq hi]
    constructor
    · rw [List.getD_eq_getElem?_getD, List.getElem?_eq_getElem hi] at h1
      simpa using h1
    · intro j hj
      have := h2 j hj
      have hjl : j < cdf.length := by omega
      rw [List.getD_eq_getElem?_getD, List.getElem?_eq_getElem hjl] at this
      simpa using this
  rw [hf]
  omega

theorem sample_index_mono (cdf : List ℚ) (u1 u2 : ℚ) (h : u1 ≤ u2) :
    min (cdf.findIdx (fun c => decide (u1 ≤ c))) (cdf.length - 1) ≤
      min (cdf.findIdx (fun c => decide (u2 ≤ c))) (cdf.length - 1) := by
  have : cdf.findIdx (fun c => decide (u1 ≤ c)) ≤ cdf.findIdx (fun c => decide (u2 ≤ c)) := by
    apply List.findIdx_le_findIdx
    intro x _ hx
    simp only [decide_eq_true_eq] at hx ⊢
    exact le_trans h hx
  omega

/-! ## The parsing loop -/

theorem parseTokens_ok_iff (stof : String → Option ℚ) (field : String)
    (toks : List String) (vs : List ℚ) :
    parseTokens stof field toks = .ok vs ↔ toks.map stof = vs.map some := by
  induction toks generalizing vs with
  | nil =>
    cases vs with
    | nil => simp [parseTokens]
    | cons v t => simp [parseTokens]
  | cons s rest ih =>
    unfold parseTokens
    cases hs : stof s with
    | none =>
      cases vs with
      | nil => simp
      | cons v t => simp [hs]
    | some v =>
      cases hr : parseTokens stof field rest with
      | error e =>
        cases vs with
        | nil => simp
        | cons v2 t =>
          have := (ih t).not.mp (by rw [hr]; simp)
          simp [hs, this]
      | ok us =>
        have hus := (ih us).mp hr
        cases vs with
        | nil => simp
        | cons v2 t =>
          simp only [Except.ok.injEq, List.cons.injEq, List.map_cons, hs, Option.some.injEq]
          constructor
          · rintro ⟨rfl, rfl⟩
            exact ⟨rfl, hus⟩
          · rintro ⟨rfl, h2⟩
            refine ⟨rfl, ?_⟩
            have h3 : us.map some = t.map some := by rw [← hus, h2]
            exact List.map_injective_iff.mpr (Option.some_injective ℚ) h3

theorem parseTokens_length (stof : String → Option ℚ) (field : String)
    (toks : List String) (vs : List ℚ) (h : parseTokens stof field toks = .ok vs) :
    vs.length = toks.length := by
  have := congrArg List.length ((parseTokens_ok_iff stof field toks vs).mp h)
  simpa using this.symm

theorem parseTokens_ok_of_all (stof : String → Option ℚ) (field : String)
    (toks : List String) (h : ∀ t ∈ toks, stof t ≠ none) :
    ∃ vs, parseTokens stof field toks = .ok vs := by
  induction toks with
  | nil => exact ⟨[], rfl⟩
  | cons s rest ih =>
    obtain ⟨vs, hvs⟩ := ih (fun t ht => h t (List.mem_cons_of_mem _ ht))
    cases hs : stof s with
    | none => exact absurd hs (h s (List.mem_cons_self _ _))
    | some v => exact ⟨v :: vs, by simp [parseTokens, hs, hvs]⟩

theorem parseTokens_error (stof : String → Option ℚ) (field : String)
    (toks : List String) (h : ∃ t ∈ toks, stof t = none) :
    ∃ tok, toks.find? (fun t => (stof t).isNone) = some tok ∧
      parseTokens stof field toks = .error (.ParseError (parseErrorMessage field tok)) := by
  induction toks with
  | nil => simp at h
  | cons s rest ih =>
    cases hs : stof s with
    | none => exact ⟨s, by simp [hs], by simp [parseTokens, hs]⟩
    | some v =>
      have h2 : ∃ t ∈ rest, stof t = none := by
        obtain ⟨t, ht, hn⟩ := h
        rcases List.mem_cons.mp ht with rfl | ht
        · rw [hs] at hn; cases hn
        · exact ⟨t, ht, hn⟩
      obtain ⟨tok, h3, h4⟩ := ih h2
      exact ⟨tok, by simp [List.find?_cons, hs, h3], by simp [parseTokens, hs, h4]⟩

/-! ## The constructor -/

theorem construct_ok (tokenize : String → String → List String)
    (stof : String → Option ℚ) (props : Properties) (wl w : List ℚ)
    (hwl : (tokenize props.wavelengths " ,").map stof = wl.map some)
    (hw : (props.weights = none ∧ w = List.replicate wl.length 1) ∨
      ∃ str, props.weights = some str ∧ (tokenize str " ,").map stof = w.map some ∧
        w.length = wl.length)
    (hnn : ∀ x ∈ w, 0 ≤ x) (hs : w.sum ≠ 0) :
    DiscreteSpectrum.construct tokenize stof props =
      .ok { m_distr :=
              { weights := w
                pmf := DiscreteDistribution.compute_pmf w
                cdf := DiscreteDistribution.compute_cdf (DiscreteDistribution.compute_pmf w)
                normalization := w.sum }
            m_wavelengths := wl } := by
  have h1 := (parseTokens_ok_iff stof "wavelengths" _ wl).mpr hwl
  have h2 : collectWeights tokenize stof props wl = .ok w := by
    unfold collectWeights
    rcases hw with ⟨hn, rfl⟩ | ⟨str, hsome, hmap, hlen⟩
    · rw [hn]
    · rw [hsome]
      have hl : (tokenize str " ,").length = wl.length := by
        have := congrArg List.length hmap
        simp only [List.length_map] at this
        omega
      simp only [hl, ne_eq, not_true_eq_false, if_false]
      exact (parseTokens_ok_iff stof "weights" _ w).mpr hmap
  unfold DiscreteSpectrum.construct
  rw [h1]
  simp only [h2, distr_construct_ok w hnn hs]

theorem construct_inv (tokenize : String → String → List String)
    (stof : String → Option ℚ) (props : Properties) (s : DiscreteSpectrum)
    (h : DiscreteSpectrum.construct tokenize stof props = .ok s) :
    (tokenize props.wavelengths " ,").map stof = s.m_wavelengths.map some ∧
    s.m_distr.weights.length = s.m_wavelengths.length ∧
    (∀ x ∈ s.m_distr.weights, 0 ≤ x) ∧ s.m_distr.weights.sum ≠ 0 ∧
    s.m_distr.pmf = DiscreteDistribution.compute_pmf s.m_distr.weights ∧
    s.m_distr.cdf =
      DiscreteDistribution.compute_cdf (DiscreteDistribution.compute_pmf s.m_distr.weights) := by
  unfold DiscreteSpectrum.construct at h
  split at h
  · cases h
  · rename_i wl hwl
    split at h
    · cases h
    · rename_i w hw
      split at h
      · cases h
      · rename_i d hd
        injection h with h
        subst h
        obtain ⟨hnn, hs, rfl⟩ := distr_construct_inv w d hd
        refine ⟨(parseTokens_ok_iff _ _ _ _).mp hwl, ?_, hnn, hs, rfl, rfl⟩
        show w.length = wl.length
        unfold collectWeights at hw
        split at hw
        · split at hw
          · cases hw
          · rename_i hl
            have := parseTokens_length _ _ _ _ hw
            simp only [ne_eq, Decidable.not_not] at hl
            omega
        · injection hw with hw
          subst hw
          simp

/-! ## The last line that carries weight -/

theorem exists_last_positive (w : List ℚ) (hnn : ∀ x ∈ w, 0 ≤ x) (hnz : ∃ x ∈ w, x ≠ 0) :
    ∃ m, m < w.length ∧ 0 < w.getD m 0 ∧ ∀ j, m < j → j < w.length → w.getD j 0 = 0 := by
  obtain ⟨x, hx, hx0⟩ := hnz
  obtain ⟨k, hk, rfl⟩ := List.getElem_of_mem hx
  have hpk : 0 < w.getD k 0 := by
    rw [List.getD_eq_getElem?_getD, List.getElem?_eq_getElem hk]
    exact lt_of_le_of_ne (hnn _ hx) (Ne.symm hx0)
  have hkb : k ≤ w.length - 1 := by omega
  refine ⟨Nat.findGreatest (fun i => 0 < w.getD i 0) (w.length - 1), ?_, ?_, ?_⟩
  · have := Nat.findGreatest_le (P := fun i => 0 < w.getD i 0) (w.length - 1)
    omega
  · exact Nat.findGreatest_spec (P := fun i => 0 < w.getD i 0) hkb hpk
  · intro j hj hjl
    have hnot := Nat.findGreatest_is_greatest (P := fun i => 0 < w.getD i 0) hj (by omega)
    have hge : 0 ≤ w.getD j 0 := by
      rw [List.getD_eq_getElem?_getD, List.getElem?_eq_getElem hjl]
      exact hnn _ (List.getElem_mem _)
    exact le_antisymm (not_lt.mp hnot) hge

theorem sum_take_of_tail_zero (p : List ℚ) (m : Nat)
    (hz : ∀ j, m < j → j < p.length → p.getD j 0 = 0) :
    (p.take (m + 1)).sum = p.sum := by
  have h1 := List.sum_take_add_sum_drop p (m + 1)
  have h2 : (p.drop (m + 1)).sum = 0 := by
    apply List.sum_eq_zero
    intro x hx
    obtain ⟨k, hk, rfl⟩ := List.getElem_of_mem hx
    rw [List.getElem_drop]
    have hk2 : m + 1 + k < p.length := by
      rw [List.length_drop] at hk
      omega
    have := hz (m + 1 + k) (by omega) hk2
    rw [List.getD_eq_getElem?_getD, List.getElem?_eq_getElem hk2] at this
    simpa using this
  rw [h2, add_zero] at h1
  exact h1

/-- The index search on a valid weight list: `sample(0)` is index 0, and for
`u` close enough to 1 the search stops at the last line with positive weight. -/
theorem sample_boundary (w : List ℚ) (hnn : ∀ x ∈ w, 0 ≤ x) (hnz : ∃ x ∈ w, x ≠ 0) :
    min ((DiscreteDistribution.compute_cdf (DiscreteDistribution.compute_pmf w)).findIdx
        (fun c => decide ((0 : ℚ) ≤ c)))
      ((DiscreteDistribution.compute_cdf (DiscreteDistribution.compute_pmf w)).length - 1) = 0 ∧
    ∃ m, m < w.length ∧ 0 < w.getD m 0 ∧ (∀ j, m < j → j < w.length → w.getD j 0 = 0) ∧
      ∃ eps : ℚ, 0 < eps ∧ ∀ u : ℚ, 1 - eps < u → u < 1 →
        min ((DiscreteDistribution.compute_cdf (DiscreteDistribution.compute_pmf w)).findIdx
            (fun c => decide (u ≤ c)))
          ((DiscreteDistribution.compute_cdf (DiscreteDistribution.compute_pmf w)).length - 1)
          = m := by
  have hpos := sum_pos_of_valid w hnn hnz
  have hsum : w.sum ≠ 0 := ne_of_gt hpos
  have hN := length_pos_of_sum_ne_zero w hsum
  have hpl := compute_pmf_length w
  have hcl : (DiscreteDistribution.compute_cdf (DiscreteDistribution.compute_pmf w)).length
      = w.length := by rw [compute_cdf_length, hpl]
  have hpnn := compute_pmf_nonneg w hnn
  constructor
  · apply sample_index_unique _ _ 0 (by omega)
    · rw [compute_cdf_getD _ 0 (by omega)]
      exact List.sum_nonneg (fun x hx => hpnn x (List.mem_of_mem_take hx))
    · intro j hj
      omega
  · obtain ⟨m, hm, hwm, hz⟩ := exists_last_positive w hnn hnz
    refine ⟨m, hm, hwm, hz, w.getD m 0 / w.sum, div_pos hwm hpos, ?_⟩
    intro u hu1 hu2
    have hcm : (DiscreteDistribution.compute_cdf (DiscreteDistribution.compute_pmf w)).getD m 0
        = 1 := by
      rw [compute_cdf_getD _ m (by omega), sum_take_of_tail_zero, compute_pmf_sum w hsum]
      intro j hj hjl
      rw [compute_pmf_getD, hz j hj (by omega), zero_div]
    apply sample_index_unique _ _ m (by omega)
    · rw [hcm]
      exact le_of_lt hu2
    · intro j hj
      have h1 : (DiscreteDistribution.compute_cdf (DiscreteDistribution.compute_pmf w)).getD j 0
          ≤ ((DiscreteDistribution.compute_pmf w).take m).sum := by
        rw [compute_cdf_getD _ j (by omega)]
        exact sum_take_mono _ hpnn _ _ (by omega)
      have h2 := sum_take_succ (DiscreteDistribution.compute_pmf w) m (by omega)
      rw [compute_cdf_getD _ m (by omega)] at hcm
      rw [hcm, compute_pmf_getD] at h2
      linarith


/-! ## Worked examples -/

theorem exampleSpectrum_construct :
    DiscreteSpectrum.construct exampleTokenize exampleStof exampleProps = .ok exampleSpectrum := by
  have h := construct_ok exampleTokenize exampleStof exampleProps [400, 500, 600] [1, 2, 3]
    (by decide) (Or.inr ⟨"1 2 3", rfl, by decide, rfl⟩) (by simp) (by norm_num)
  rw [h]
  simp [exampleSpectrum, DiscreteDistribution.compute_pmf, DiscreteDistribution.compute_cdf,
    List.range_succ]
  norm_num

theorem exampleDistribution_construct :
    DiscreteDistribution.construct [1, 2, 3] = .ok exampleSpectrum.m_distr := by
  rw [distr_construct_ok [1, 2, 3] (by simp) (by norm_num)]
  simp [exampleSpectrum, DiscreteDistribution.compute_pmf, DiscreteDistribution.compute_cdf,
    List.range_succ]
  norm_num

/-! ## Claims -/

/-- Claim C1: for every successfully constructed line spectrum (spectral
representation) and every `u` in `[0,1)`, `sample_spectrum` returns
`(wavelengths[i], w[i] / sum(w))`, where `i` is the smallest index with
`cdf[i] >= u`; `i` lies in `[0, N-1]`, so the wavelength lookup is in range. -/
theorem sample_spectrum_least_index (tokenize : String → String → List String)
    (stof : String → Option ℚ) (props : Properties) (s : DiscreteSpectrum) (u : ℚ)
    (hs : DiscreteSpectrum.construct tokenize stof props = .ok s)
    (_h0 : 0 ≤ u) (h1 : u < 1) :
    ∃ (i : Nat) (hi : i < s.m_wavelengths.length),
      s.m_distr.weights.length = s.m_wavelengths.length ∧
      s.m_distr.cdf.length = s.m_wavelengths.length ∧
      u ≤ s.m_distr.cdf.getD i 0 ∧
      (∀ j, j < i → s.m_distr.cdf.getD j 0 < u) ∧
      DiscreteSpectrum.sample_spectrum true s u =
        .ok (some (s.m_wavelengths.get ⟨i, hi⟩),
             s.m_distr.weights.getD i 0 / s.m_distr.weights.sum) := by
  obtain ⟨_, hlen, hnn, hsum, hpmf, hcdf⟩ := construct_inv tokenize stof props s hs
  have hN := length_pos_of_sum_ne_zero _ hsum
  have hcl : s.m_distr.cdf.length = s.m_distr.weights.length := by
    rw [hcdf, compute_cdf_length, compute_pmf_length]
  have hex : ∃ c ∈ s.m_distr.cdf, u ≤ c := by
    refine ⟨s.m_distr.cdf.getD (s.m_distr.weights.length - 1) 0, ?_, ?_⟩
    · rw [List.getD_eq_getElem?_getD,
        List.getElem?_eq_getElem (show s.m_distr.weights.length - 1 < s.m_distr.cdf.length by omega)]
      exact List.getElem_mem _
    · rw [hcdf, cdf_last _ hsum hN]
      exact le_of_lt h1
  obtain ⟨hi, hge, hlt⟩ := sample_index_spec s.m_distr.cdf u hex
  refine ⟨s.m_distr.sample_index u, by unfold DiscreteDistribution.sample_index; omega,
    hlen, by omega, hge, hlt, ?_⟩
  simp only [DiscreteSpectrum.sample_spectrum, DiscreteDistribution.sample_pmf, gather,
    if_true]
  rw [hpmf, compute_pmf_getD, List.get?_eq_get]

/-- Claim C2: for every valid construction (`N >= 1` wavelengths, `N` weights, every
weight `>= 0`, not all zero; the weights given or defaulted), the derived
distribution satisfies `pmf[i] = weight[i] / sum(weight)` for every `i`,
`sum(pmf) = 1`, `cdf[i] <= cdf[i+1]` for every `i < N-1`, and `cdf[N-1] = 1`. -/
theorem construct_distribution_normalized (tokenize : String → String → List String)
    (stof : String → Option ℚ) (props : Properties) (wl w : List ℚ)
    (hwl : (tokenize props.wavelengths " ,").map stof = wl.map some)
    (hw : (props.weights = none ∧ w = List.replicate wl.length 1) ∨
      ∃ str, props.weights = some str ∧ (tokenize str " ,").map stof = w.map some)
    (hN : 1 ≤ wl.length) (hlen : w.length = wl.length)
    (hnn : ∀ x ∈ w, 0 ≤ x) (hnz : ∃ x ∈ w, x ≠ 0) :
    ∃ s, DiscreteSpectrum.construct tokenize stof props = .ok s ∧
      s.m_wavelengths = wl ∧ s.m_distr.weights = w ∧
      s.m_distr.pmf.length = wl.length ∧ s.m_distr.cdf.length = wl.length ∧
      (∀ i, i < wl.length → s.m_distr.pmf.getD i 0 = w.getD i 0 / w.sum) ∧
      s.m_distr.pmf.sum = 1 ∧
      (∀ i, i + 1 < wl.length → s.m_distr.cdf.getD i 0 ≤ s.m_distr.cdf.getD (i + 1) 0) ∧
      s.m_distr.cdf.getD (wl.length - 1) 0 = 1 := by
  have hsum : w.sum ≠ 0 := ne_of_gt (sum_pos_of_valid w hnn hnz)
  have hw2 : (props.weights = none ∧ w = List.replicate wl.length 1) ∨
      ∃ str, props.weights = some str ∧ (tokenize str " ,").map stof = w.map some ∧
        w.length = wl.length := by
    rcases hw with h | ⟨str, h1, h2⟩
    · exact Or.inl h
    · exact Or.inr ⟨str, h1, h2, hlen⟩
  refine ⟨_, construct_ok tokenize stof props wl w hwl hw2 hnn hsum, rfl, rfl, ?_, ?_, ?_, ?_,
    ?_, ?_⟩
  · rw [compute_pmf_length, hlen]
  · rw [compute_cdf_length, compute_pmf_length, hlen]
  · intro i _
    exact compute_pmf_getD w i
  · exact compute_pmf_sum w hsum
  · intro i hi
    exact cdf_mono w hnn i (i + 1) (by omega) (by omega)
  · rw [← hlen]
    exact cdf_last w hsum (by omega)

/-- Claim C3: when every token of the wavelengths list parses and the weights list
is present with a different number of entries, construction fails with
`SizeMismatch`. -/
theorem construct_size_mismatch (tokenize : String → String → List String)
    (stof : String → Option ℚ) (props : Properties) (str : String)
    (hwl : ∀ t ∈ tokenize props.wavelengths " ,", stof t ≠ none)
    (hw : props.weights = some str)
    (hne : (tokenize str " ,").length ≠ (tokenize props.wavelengths " ,").length) :
    DiscreteSpectrum.construct tokenize stof props =
      .error (.SizeMismatch sizeMismatchMessage) := by
  obtain ⟨wl, h1⟩ := parseTokens_ok_of_all stof "wavelengths" _ hwl
  have hl := parseTokens_length _ _ _ _ h1
  unfold DiscreteSpectrum.construct
  rw [h1]
  simp only [collectWeights, hw]
  rw [if_pos (by rw [hl]; exact hne)]

/-- Claim C4: for numeric wavelength and weight lists of the same length in which
all weights are zero or at least one weight is negative, construction fails
with `DegenerateDistribution`. -/
theorem construct_degenerate (tokenize : String → String → List String)
    (stof : String → Option ℚ) (props : Properties) (str : String) (wl w : List ℚ)
    (hwl : (tokenize props.wavelengths " ,").map stof = wl.map some)
    (hw : props.weights = some str)
    (hws : (tokenize str " ,").map stof = w.map some)
    (hlen : w.length = wl.length)
    (hdeg : (∀ x ∈ w, x = 0) ∨ ∃ x ∈ w, x < 0) :
    DiscreteSpectrum.construct tokenize stof props = .error .DegenerateDistribution := by
  have h1 := (parseTokens_ok_iff stof "wavelengths" _ wl).mpr hwl
  have h2 := (parseTokens_ok_iff stof "weights" _ w).mpr hws
  have hl : (tokenize str " ,").length = wl.length := by
    have := congrArg List.length hws
    simp only [List.length_map] at this
    omega
  unfold DiscreteSpectrum.construct
  rw [h1]
  simp only [collectWeights, hw, hl, ne_eq, not_true_eq_false, if_false, h2,
    distr_construct_degenerate w hdeg]

/-- Claim C5: for `N >= 1` wavelengths given without weights, construction succeeds
with the weight array equal to `N` copies of `1`, and the pmf equals `1/N` at
every index. -/
theorem construct_default_weights (tokenize : String → String → List String)
    (stof : String → Option ℚ) (props : Properties) (wl : List ℚ)
    (hwl : (tokenize props.wavelengths " ,").map stof = wl.map some)
    (hw : props.weights = none) (hN : 1 ≤ wl.length) :
    ∃ s, DiscreteSpectrum.construct tokenize stof props = .ok s ∧
      s.m_wavelengths = wl ∧
      s.m_distr.weights = List.replicate wl.length 1 ∧
      s.m_distr.pmf = List.replicate wl.length (1 / (wl.length : ℚ)) := by
  have hnn : ∀ x ∈ List.replicate wl.length (1 : ℚ), 0 ≤ x := by
    intro x hx
    rw [List.eq_of_mem_replicate hx]
    exact zero_le_one
  have hsum : (List.replicate wl.length (1 : ℚ)).sum = (wl.length : ℚ) := by
    simp
  have hs : (List.replicate wl.length (1 : ℚ)).sum ≠ 0 := by
    rw [hsum]
    exact_mod_cast (by omega : wl.length ≠ 0)
  refine ⟨_, construct_ok tokenize stof props wl _ hwl (Or.inl ⟨hw, rfl⟩) hnn hs, rfl, rfl, ?_⟩
  show DiscreteDistribution.compute_pmf _ = _
  unfold DiscreteDistribution.compute_pmf
  rw [hsum, List.map_replicate]

/-- Claim C6: for every valid distribution and all `u1 < u2` in `[0,1)`, the index
returned by `sample(u1)` is at most the index returned by `sample(u2)`. -/
theorem sample_index_monotone (w : List ℚ) (d : DiscreteDistribution) (u1 u2 : ℚ)
    (_hd : DiscreteDistribution.construct w = .ok d)
    (_h0 : 0 ≤ u1) (h12 : u1 < u2) (_h2 : u2 < 1) :
    (d.sample_pmf u1).1 ≤ (d.sample_pmf u2).1 :=
  sample_index_mono d.cdf u1 u2 (le_of_lt h12)

/-- Claim C8: after the weight array has been externally edited to a non-empty,
non-negative, not-all-zero array, `parameters_changed` fails with
`SizeMismatch` if and only if the edited weight array and the wavelength array
differ in length (and succeeds otherwise); it leaves both arrays as they are,
and repeating it gives the same outcome. -/
theorem parameters_changed_size_mismatch (s : DiscreteSpectrum) (w : List ℚ)
    (_hne : w ≠ []) (hnn : ∀ x ∈ w, 0 ≤ x) (hnz : ∃ x ∈ w, x ≠ 0) :
    ((∃ msg, (s.set_weights w).parameters_changed.1 = .error (.SizeMismatch msg)) ↔
        w.length ≠ s.m_wavelengths.length) ∧
    (w.length = s.m_wavelengths.length →
        (s.set_weights w).parameters_changed.1 = .ok ()) ∧
    (s.set_weights w).parameters_changed.2.m_distr.weights = w ∧
    (s.set_weights w).parameters_changed.2.m_wavelengths = s.m_wavelengths ∧
    (s.set_weights w).parameters_changed.2.parameters_changed.1 =
      (s.set_weights w).parameters_changed.1 := by
  have hsum : w.sum ≠ 0 := ne_of_gt (sum_pos_of_valid w hnn hnz)
  have hu := distr_construct_ok w hnn hsum
  by_cases hl : w.length = s.m_wavelengths.length
  · simp [DiscreteSpectrum.parameters_changed, DiscreteSpectrum.set_weights,
      DiscreteDistribution.update, hu, hl]
  · simp [DiscreteSpectrum.parameters_changed, DiscreteSpectrum.set_weights,
      DiscreteDistribution.update, hu, hl]

/-- Claim C9: for every line spectrum and every position, `eval` returns exactly 0
and `pdf_spectrum` returns exactly 0, whatever the wavelengths and weights. -/
theorem eval_pdf_zero {SurfaceInteraction3f : Type} (s : DiscreteSpectrum)
    (si : SurfaceInteraction3f) (active : Bool) :
    s.eval si active = 0 ∧ s.pdf_spectrum si active = 0 :=
  ⟨rfl, rfl⟩

/-- Claim C10: when some token of the wavelengths list is not a valid float, or the
weights list has as many tokens as the wavelengths list and some weights token
is not a valid float, construction fails with `ParseError`; the message names
the field and the first offending token of that field. -/
theorem construct_parse_error (tokenize : String → String → List String)
    (stof : String → Option ℚ) (props : Properties)
    (h : (∃ t ∈ tokenize props.wavelengths " ,", stof t = none) ∨
      ∃ str, props.weights = some str ∧
        (tokenize str " ,").length = (tokenize props.wavelengths " ,").length ∧
        ∃ t ∈ tokenize str " ,", stof t = none) :
    ∃ field tok,
      DiscreteSpectrum.construct tokenize stof props =
        .error (.ParseError ("While parsing " ++ field ++
          ": could not parse floating point value \x27" ++ tok ++ "\x27")) ∧
      ((field = "wavelengths" ∧
          (tokenize props.wavelengths " ,").find? (fun t => (stof t).isNone) = some tok) ∨
       (field = "weights" ∧ ∃ str, props.weights = some str ∧
          (tokenize str " ,").find? (fun t => (stof t).isNone) = some tok)) := by
  by_cases hwl : ∃ t ∈ tokenize props.wavelengths " ,", stof t = none
  · obtain ⟨tok, hfind, herr⟩ := parseTokens_error stof "wavelengths" _ hwl
    refine ⟨"wavelengths", tok, ?_, Or.inl ⟨rfl, hfind⟩⟩
    unfold DiscreteSpectrum.construct
    rw [herr]
    rfl
  · rcases h with h | ⟨str, hsome, hlen, hbad⟩
    · exact absurd h hwl
    · have hall : ∀ t ∈ tokenize props.wavelengths " ,", stof t ≠ none := by
        intro t ht hn
        exact hwl ⟨t, ht, hn⟩
      obtain ⟨wl, h1⟩ := parseTokens_ok_of_all stof "wavelengths" _ hall
      have hl := parseTokens_length _ _ _ _ h1
      obtain ⟨tok, hfind, herr⟩ := parseTokens_error stof "weights" _ hbad
      refine ⟨"weights", tok, ?_, Or.inr ⟨rfl, str, hsome, hfind⟩⟩
      unfold DiscreteSpectrum.construct
      rw [h1]
      simp only [collectWeights, hsome, hlen, hl, ne_eq, not_true_eq_false, if_false, herr]
      rfl

/-- Claim C7, amended: for every valid distribution over `N` lines, `sample(0)`
returns index 0, and there is an `eps > 0` such that `sample(u)` returns, for
every `u` with `1 - eps < u < 1`, the index `m` of the last line with positive
weight; `m = N-1` whenever the last weight is not zero. -/
theorem sample_boundary_indices (w : List ℚ) (d : DiscreteDistribution)
    (hd : DiscreteDistribution.construct w = .ok d) :
    (d.sample_pmf 0).1 = 0 ∧
    ∃ m, m < w.length ∧ 0 < w.getD m 0 ∧ (∀ j, m < j → j < w.length → w.getD j 0 = 0) ∧
      (w.getD (w.length - 1) 0 ≠ 0 → m = w.length - 1) ∧
      ∃ eps : ℚ, 0 < eps ∧ ∀ u : ℚ, 1 - eps < u → u < 1 → (d.sample_pmf u).1 = m := by
  obtain ⟨hnn, hsum, rfl⟩ := distr_construct_inv w d hd
  have hnz : ∃ x ∈ w, x ≠ 0 := by
    by_contra hcon
    push_neg at hcon
    exact hsum (List.sum_eq_zero hcon)
  obtain ⟨h0, m, hm, hwm, hz, eps, heps, hu⟩ := sample_boundary w hnn hnz
  refine ⟨h0, m, hm, hwm, hz, ?_, eps, heps, hu⟩
  intro hlast
  by_contra hne
  exact hlast (hz (w.length - 1) (by omega) (by omega))

/-- Claim C7 as stated fails on the weights `[1, 0]`: the cumulative table is
`[1, 1]`, so every `u` in `(0, 1)` is sent to index 0 and never to `N-1 = 1`. -/
theorem sample_boundary_trailing_zero :
    ∃ d, DiscreteDistribution.construct [1, 0] = .ok d ∧
      ¬ ((d.sample_pmf 0).1 = 0 ∧
          ∃ eps : ℚ, 0 < eps ∧ ∀ u : ℚ, 1 - eps < u → u < 1 →
            (d.sample_pmf u).1 = [(1 : ℚ), 0].length - 1) := by
  refine ⟨⟨[1, 0], [1, 0], [1, 1], 1⟩, ?_, ?_⟩
  · rw [distr_construct_ok [1, 0] (by simp) (by norm_num)]
    simp [DiscreteDistribution.compute_pmf, DiscreteDistribution.compute_cdf, List.range_succ]
  rintro ⟨_, eps, heps, h⟩
  have h1 := h (max (1 - eps / 2) (1 / 2)) (by
    have : 1 - eps < 1 - eps / 2 := by linarith
    exact lt_of_lt_of_le this (le_max_left _ _)) (by
    apply max_lt <;> linarith)
  have hle : max (1 - eps / 2) (1 / 2) ≤ (1 : ℚ) := by
    apply max_le <;> linarith
  have h2 := sample_index_unique [1, 1] (max (1 - eps / 2) (1 / 2)) 0 (by simp)
    (by simpa using hle) (by intro j hj; omega)
  have h3 : (0 : Nat) = [(1 : ℚ), 0].length - 1 := h2.symm.trans h1
  simp at h3

/-! ## The claims on the worked examples -/

/-- Claim C1 on the worked example: wavelengths `[400, 500, 600]`, weights
`[1, 2, 3]`, `u = 1/2` give index 1, wavelength 500 and weight `2/6`. -/
theorem sample_spectrum_least_index_witness :
    DiscreteSpectrum.sample_spectrum true exampleSpectrum (1 / 2) = .ok (some 500, 2 / 6) ∧
    ∃ (i : Nat) (hi : i < exampleSpectrum.m_wavelengths.length),
      exampleSpectrum.m_distr.weights.length = exampleSpectrum.m_wavelengths.length ∧
      exampleSpectrum.m_distr.cdf.length = exampleSpectrum.m_wavelengths.length ∧
      (1 / 2 : ℚ) ≤ exampleSpectrum.m_distr.cdf.getD i 0 ∧
      (∀ j, j < i → exampleSpectrum.m_distr.cdf.getD j 0 < 1 / 2) ∧
      DiscreteSpectrum.sample_spectrum true exampleSpectrum (1 / 2) =
        .ok (some (exampleSpectrum.m_wavelengths.get ⟨i, hi⟩),
             exampleSpectrum.m_distr.weights.getD i 0 / exampleSpectrum.m_distr.weights.sum) :=
  ⟨by
    simp [DiscreteSpectrum.sample_spectrum, DiscreteDistribution.sample_pmf,
      DiscreteDistribution.sample_index, gather, exampleSpectrum, List.findIdx_cons]
    norm_num,
   sample_spectrum_least_index exampleTokenize exampleStof exampleProps exampleSpectrum (1 / 2)
    exampleSpectrum_construct (by norm_num) (by norm_num)⟩

/-- Claim C2 on the worked example: wavelengths `[400, 500, 600]`, weights
`[1, 2, 3]`. -/
theorem construct_distribution_normalized_witness :
    ∃ s, DiscreteSpectrum.construct exampleTokenize exampleStof exampleProps = .ok s ∧
      s.m_wavelengths = [400, 500, 600] ∧ s.m_distr.weights = [1, 2, 3] ∧
      s.m_distr.pmf.length = [(400 : ℚ), 500, 600].length ∧
      s.m_distr.cdf.length = [(400 : ℚ), 500, 600].length ∧
      (∀ i, i < [(400 : ℚ), 500, 600].length →
        s.m_distr.pmf.getD i 0 = [(1 : ℚ), 2, 3].getD i 0 / [(1 : ℚ), 2, 3].sum) ∧
      s.m_distr.pmf.sum = 1 ∧
      (∀ i, i + 1 < [(400 : ℚ), 500, 600].length →
        s.m_distr.cdf.getD i 0 ≤ s.m_distr.cdf.getD (i + 1) 0) ∧
      s.m_distr.cdf.getD ([(400 : ℚ), 500, 600].length - 1) 0 = 1 :=
  construct_distribution_normalized exampleTokenize exampleStof exampleProps
    [400, 500, 600] [1, 2, 3] (by decide) (Or.inr ⟨"1 2 3", rfl, by decide⟩)
    (by decide) rfl (by simp) ⟨1, by simp, by norm_num⟩

/-- Claim C3 on three wavelengths with two weights. -/
theorem construct_size_mismatch_witness :
    (exampleTokenize "400 500 600" " ,").length = 3 ∧
    (exampleTokenize "1 2" " ,").length = 2 ∧
    DiscreteSpectrum.construct exampleTokenize exampleStof
        { wavelengths := "400 500 600", weights := some "1 2" } =
      .error (.SizeMismatch sizeMismatchMessage) :=
  ⟨by decide, by decide,
   construct_size_mismatch exampleTokenize exampleStof
    { wavelengths := "400 500 600", weights := some "1 2" } "1 2"
    (by decide) rfl (by decide)⟩

/-- Claim C4 on the weights `[0, 0]`. -/
theorem construct_degenerate_witness :
    DiscreteSpectrum.construct exampleTokenize exampleStof
        { wavelengths := "400 500", weights := some "0 0" } =
      .error .DegenerateDistribution :=
  construct_degenerate exampleTokenize exampleStof
    { wavelengths := "400 500", weights := some "0 0" } "0 0" [400, 500] [0, 0]
    (by decide) rfl (by decide) rfl (Or.inl (by simp))

/-- Claim C5 on wavelengths `[400, 500]` without weights: the pmf is
`[1/2, 1/2]`. -/
theorem construct_default_weights_witness :
    ∃ s, DiscreteSpectrum.construct exampleTokenize exampleStof
        { wavelengths := "400 500", weights := none } = .ok s ∧
      s.m_wavelengths = [400, 500] ∧
      s.m_distr.weights = [1, 1] ∧
      s.m_distr.pmf = [1 / 2, 1 / 2] := by
  obtain ⟨s, h1, h2, h3, h4⟩ := construct_default_weights exampleTokenize exampleStof
    { wavelengths := "400 500", weights := none } [400, 500] (by decide) rfl (by decide)
  exact ⟨s, h1, h2, by simpa using h3, by simpa using h4⟩

/-- Claim C6 on the worked example with `u1 = 1/10` and `u2 = 1/2`: the
indices are 0 and 1. -/
theorem sample_index_monotone_witness :
    (exampleSpectrum.m_distr.sample_pmf (1 / 10)).1 = 0 ∧
    (exampleSpectrum.m_distr.sample_pmf (1 / 2)).1 = 1 ∧
    (exampleSpectrum.m_distr.sample_pmf (1 / 10)).1 ≤
      (exampleSpectrum.m_distr.sample_pmf (1 / 2)).1 :=
  ⟨by
    simp [DiscreteDistribution.sample_pmf, DiscreteDistribution.sample_index, exampleSpectrum,
      List.findIdx_cons]
    norm_num,
   by
    simp [DiscreteDistribution.sample_pmf, DiscreteDistribution.sample_index, exampleSpectrum,
      List.findIdx_cons]
    norm_num,
   sample_index_monotone [1, 2, 3] exampleSpectrum.m_distr (1 / 10) (1 / 2)
    exampleDistribution_construct (by norm_num) (by norm_num) (by norm_num)⟩

/-- Claim C7, amended, on the weights `[1, 2, 3]`. -/
theorem sample_boundary_indices_witness :
    (exampleSpectrum.m_distr.sample_pmf 0).1 = 0 ∧
    ∃ m, m < [(1 : ℚ), 2, 3].length ∧ 0 < [(1 : ℚ), 2, 3].getD m 0 ∧
      (∀ j, m < j → j < [(1 : ℚ), 2, 3].length → [(1 : ℚ), 2, 3].getD j 0 = 0) ∧
      ([(1 : ℚ), 2, 3].getD ([(1 : ℚ), 2, 3].length - 1) 0 ≠ 0 →
        m = [(1 : ℚ), 2, 3].length - 1) ∧
      ∃ eps : ℚ, 0 < eps ∧ ∀ u : ℚ, 1 - eps < u → u < 1 →
        (exampleSpectrum.m_distr.sample_pmf u).1 = m :=
  sample_boundary_indices [1, 2, 3] exampleSpectrum.m_distr exampleDistribution_construct

/-- Claim C8 on the worked example after its three weights have been replaced
by `[1, 2]`. -/
theorem parameters_changed_size_mismatch_witness :
    (exampleSpectrum.set_weights [1, 2]).parameters_changed.1 =
      .error (.SizeMismatch sizeMismatchMessage) ∧
    (exampleSpectrum.set_weights [1, 2]).parameters_changed.2.parameters_changed.1 =
      (exampleSpectrum.set_weights [1, 2]).parameters_changed.1 := by
  have h := parameters_changed_size_mismatch exampleSpectrum [1, 2] (by simp) (by simp)
    ⟨1, by simp, by norm_num⟩
  obtain ⟨msg, hmsg⟩ := h.1.mpr (by decide)
  refine ⟨?_, h.2.2.2.2⟩
  simp [DiscreteSpectrum.parameters_changed, DiscreteSpectrum.set_weights,
    DiscreteDistribution.update, DiscreteDistribution.construct, exampleSpectrum]
  norm_num

/-- Claim C10 on the wavelengths `400 5x0 6y0`: the first offending token is
`5x0`. -/
theorem construct_parse_error_witness :
    ∃ field tok,
      DiscreteSpectrum.construct exampleTokenize exampleStof
          { wavelengths := "400 5x0 6y0", weights := none } =
        .error (.ParseError ("While parsing " ++ field ++
          ": could not parse floating point value \x27" ++ tok ++ "\x27")) ∧
      ((field = "wavelengths" ∧
          (exampleTokenize "400 5x0 6y0" " ,").find? (fun t => (exampleStof t).isNone)
            = some tok) ∨
       (field = "weights" ∧ ∃ str, (none : Option String) = some str ∧
          (exampleTokenize str " ,").find? (fun t => (exampleStof t).isNone) = some tok)) :=
  construct_parse_error exampleTokenize exampleStof
    { wavelengths := "400 5x0 6y0", weights := none } (Or.inl ⟨"5x0", by decide, by decide⟩)

end Mitsuba
